import Mathlib

/-!
Shallow embedding of the CSV bulk-import pipeline of `src/services/csvImport.ts`
(class `CSVImportService`), together with the enumerated types it consumes from
`src/models/enums.ts`.

Modelling conventions:
  * JavaScript strings are Lean `String`s; the string builtins the service uses
    (`toLowerCase`, `trim`, `parseInt`, the email regular expression of
    `isValidEmail`) are modelled over `List Char`.  Case mapping is the ASCII
    mapping (`Char.toLower`), which agrees with JavaScript `toLowerCase` on the
    Basic Latin range; `trim` removes the ASCII whitespace characters.
  * A CSV field that may be absent (`undefined`) is an `Option String`;
    optional chaining (`x?.f()`) is `Option.map`.
  * JavaScript numbers produced by `parseInt` are `Option Int`, with `none`
    playing the role of `NaN`.  Progress counters are `Int` (they are plain
    JavaScript numbers) and the progress percentage is an exact rational;
    the float rounding of `(rowNumber / 100000) * 100` is immaterial to the
    monotonicity and capping facts proved below because rounding is monotone
    and `Math.min (_, 99)` caps exactly.
  * The asynchronous stream of `processCSVStream` is modelled as a state
    machine driven by an event list: one event per record delivered by the
    parser, an end-of-stream event, and a `cancelImport` call that may be
    interleaved at any point between two events.  The result of each
    `customerRepository.bulkWrite` call is an oracle indexed by the number of
    batches dispatched so far (`processedBatches`), since the coordinator is
    the only writer and dispatches batches sequentially.
-/

namespace HigoCSV

/-! ## JavaScript string builtins -/

/-- JavaScript whitespace test, restricted to the ASCII whitespace characters
(space, tab, carriage return, newline) that `Char.isWhitespace` covers. -/
def jsWhitespace (c : Char) : Bool := c.isWhitespace

/-- `String.prototype.toLowerCase`, ASCII fragment: each character is lowered
with the Basic Latin case mapping. -/
def jsToLowerCase (s : String) : String := ⟨s.data.map Char.toLower⟩

/-- `String.prototype.trim`: remove leading and trailing whitespace. -/
def jsTrimList (l : List Char) : List Char :=
  ((l.dropWhile jsWhitespace).reverse.dropWhile jsWhitespace).reverse

/-- `String.prototype.trim` on strings. -/
def jsTrim (s : String) : String := ⟨jsTrimList s.data⟩

/-- JavaScript `parseInt(x)` in radix 10 on an optional argument: skip leading
whitespace, read an optional sign, then the longest prefix of decimal digits;
`none` stands for `NaN` (missing argument, or no digit found).  The `0x`
hexadecimal auto-detection of `parseInt` is not modelled; no input appearing in
this development uses it. -/
def parseIntJS : Option String → Option Int
  | none => none
  | some s =>
    let cs := s.data.dropWhile jsWhitespace
    let signed : Bool × List Char :=
      match cs with
      | '-' :: rest => (true, rest)
      | '+' :: rest => (false, rest)
      | _ => (false, cs)
    let ds := signed.2.takeWhile Char.isDigit
    if ds.isEmpty then none
    else
      let n : Nat := ds.foldl (fun acc c => acc * 10 + (c.toNat - 48)) 0
      some (if signed.1 then -(n : Int) else (n : Int))

/-- A character admissible inside the email pattern: the `[^\s@]` class. -/
def emailCharOk (c : Char) : Bool := !jsWhitespace c && c ≠ '@'

/-- `isValidEmail` of csvImport.ts: the test of the regular expression
`^[^\s@]+@[^\s@]+\.[^\s@]+$`.  A string matches iff it splits at its (then
necessarily unique) `@` into a nonempty `[^\s@]+` local part and a remainder
that is `[^\s@]+` containing a dot with at least one character on each side. -/
def isValidEmail (s : String) : Bool :=
  let cs := s.data
  let l := cs.takeWhile (fun c => c ≠ '@')
  match cs.dropWhile (fun c => c ≠ '@') with
  | [] => false
  | _ :: d =>
    !l.isEmpty && l.all emailCharOk && !d.isEmpty && d.all emailCharOk &&
      ((d.drop 1).dropLast.contains '.')

/-- JavaScript `a || b` on two optional strings: `a` when present and truthy
(nonempty), otherwise `b`.  Models `row.birthYear || row.age`. -/
def jsOrStr (a b : Option String) : Option String :=
  match a with
  | some s => if s = "" then b else some s
  | none => b

/-- Truthiness of an optional JavaScript number: `NaN` (here `none`), `0` and
`-0` are falsy. -/
def truthyInt : Option Int → Bool
  | some v => v ≠ 0
  | none => false

/-- Truthiness of an optional JavaScript string: `undefined` and `""` are
falsy. -/
def truthyStr : Option String → Bool
  | some s => s ≠ ""
  | none => false

/-- JavaScript `message || 'Unknown error'` used when formatting batch
errors. -/
def jsMessageOr (m : String) : String := if m = "" then "Unknown error" else m

/-! ## Enumerated types (src/models/enums.ts) -/

inductive Gender
  | MALE
  | FEMALE
  | OTHER
  deriving DecidableEq, Repr

inductive DeviceBrand
  | SAMSUNG
  | APPLE
  | HUAWEI
  | XIAOMI
  | OPPO
  | VIVO
  | OTHER
  deriving DecidableEq, Repr

inductive DigitalInterest
  | SOCIAL_MEDIA
  | GAMING
  | SHOPPING
  | NEWS
  | ENTERTAINMENT
  | EDUCATION
  | HEALTH
  | FINANCE
  | TRAVEL
  | FOOD
  | OTHER
  deriving DecidableEq, Repr

/-- `LocationType` of enums.ts.  Note: unlike the three enums above it has no
`OTHER` member. -/
inductive LocationType
  | URBAN
  | SUBURBAN
  | RURAL
  deriving DecidableEq, Repr

/-! ## Rows, entities, errors -/

/-- A header-mapped CSV record as the parser stream delivers it to the
`Transform`: every canonical field either absent (the header was missing) or a
string. -/
structure RawRow where
  number : Option String := none
  locationName : Option String := none
  date : Option String := none
  loginHour : Option String := none
  userName : Option String := none
  birthYear : Option String := none
  age : Option String := none
  gender : Option String := none
  email : Option String := none
  phoneNumber : Option String := none
  deviceBrand : Option String := none
  digitalInterest : Option String := none
  locationType : Option String := none
  deriving DecidableEq, Repr

/-- The fields of `ICustomer` (src/models/customer.ts) that `transformCSVRow`
fills in.  `date` keeps the raw string — `new Date(row.date)` is stored but
never validated, so the calendar value is irrelevant to every claim.  Fields
built with `parseInt` are `Option Int` (`none` = `NaN`), fields built with
optional chaining are `Option String`. -/
structure ICustomer where
  number : Option Int
  locationName : Option String
  date : Option String
  loginHour : Option String
  userName : Option String
  birthYear : Option Int
  gender : Gender
  email : Option String
  phoneNumber : Option String
  deviceBrand : DeviceBrand
  digitalInterest : DigitalInterest
  locationType : LocationType
  deriving DecidableEq, Repr

/-- `CSVImportError` of csvImport.ts.  The `rawData` snapshot is only attached
by the transformer's `catch` branch, which cannot fire in this model (all the
string operations involved are total), and is omitted. -/
structure CSVImportError where
  row : Int
  field : Option String := none
  value : Option String := none
  error : String
  deriving DecidableEq, Repr

/-! ## Enum mappers -/

/-- `mapGender`: case-insensitive switch after `toLowerCase().trim()`, with
`Gender.OTHER` as the default. -/
def mapGender (gender : Option String) : Gender :=
  let g := gender.map (fun s => jsTrim (jsToLowerCase s))
  if g = some "male" ∨ g = some "m" then .MALE
  else if g = some "female" ∨ g = some "f" then .FEMALE
  else .OTHER

/-- `mapDeviceBrand`: case-insensitive switch, default `DeviceBrand.OTHER`. -/
def mapDeviceBrand (brand : Option String) : DeviceBrand :=
  let b := brand.map (fun s => jsTrim (jsToLowerCase s))
  if b = some "samsung" then .SAMSUNG
  else if b = some "apple" then .APPLE
  else if b = some "huawei" then .HUAWEI
  else if b = some "xiaomi" then .XIAOMI
  else if b = some "oppo" then .OPPO
  else if b = some "vivo" then .VIVO
  else .OTHER

/-- `mapDigitalInterest`: case-insensitive switch, default
`DigitalInterest.OTHER`. -/
def mapDigitalInterest (interest : Option String) : DigitalInterest :=
  let i := interest.map (fun s => jsTrim (jsToLowerCase s))
  if i = some "social media" then .SOCIAL_MEDIA
  else if i = some "gaming" then .GAMING
  else if i = some "shopping" then .SHOPPING
  else if i = some "news" then .NEWS
  else if i = some "entertainment" then .ENTERTAINMENT
  else if i = some "education" then .EDUCATION
  else if i = some "health" then .HEALTH
  else if i = some "finance" then .FINANCE
  else if i = some "travel" then .TRAVEL
  else if i = some "food" then .FOOD
  else .OTHER

/-- `mapLocationType`: case-insensitive switch; the default branch returns
`LocationType.URBAN` (there is no `OTHER` member in this enum). -/
def mapLocationType (t : Option String) : LocationType :=
  let l := t.map (fun s => jsTrim (jsToLowerCase s))
  if l = some "urban" then .URBAN
  else if l = some "sub urban" ∨ l = some "suburban" then .SUBURBAN
  else if l = some "rural" then .RURAL
  else .URBAN

/-! ## The row transformer -/

/-- Result record of `transformCSVRow`. -/
structure TransformResult where
  isValid : Bool
  data : Option ICustomer
  errors : List CSVImportError
  deriving DecidableEq, Repr

/-- The normalized email `row.email?.toLowerCase().trim()` that
`transformCSVRow` both validates and stores. -/
def normalizedEmail (r : RawRow) : Option String :=
  r.email.map (fun s => jsTrim (jsToLowerCase s))

/-- The source's email acceptance condition, negation of
`!customerData.email || !this.isValidEmail(customerData.email)`: the field is
truthy and matches the pattern. -/
def emailOkB : Option String → Bool
  | some e => decide (e ≠ "") && isValidEmail e
  | none => false

/-- The source's birth-year acceptance condition, negation of
`!y || y < 1900 || y > currentYear`: the parsed value is truthy and lies
within `[1900, currentYear]`. -/
def birthYearOkB (currentYear : Int) : Option Int → Bool
  | some y => decide (y ≠ 0) && decide (1900 ≤ y) && decide (y ≤ currentYear)
  | none => false

/-- `transformCSVRow` of csvImport.ts.  `currentYear` stands for
`new Date().getFullYear()`.  The `customerData` record is built first, then the
five required-field checks run in source order, each pushing its own
`CSVImportError`; the row is valid iff no check pushed an error.  The `catch`
branch of the source cannot fire here: with string-valued fields none of the
operations involved throws. -/
def transformCSVRow (currentYear : Int) (row : RawRow) (rowNumber : Int) :
    TransformResult :=
  let customerData : ICustomer :=
    { number := parseIntJS row.number
      locationName := row.locationName.map jsTrim
      date := row.date
      loginHour := row.loginHour.map jsTrim
      userName := row.userName.map jsTrim
      birthYear := parseIntJS (jsOrStr row.birthYear row.age)
      gender := mapGender row.gender
      email := normalizedEmail row
      phoneNumber := row.phoneNumber.map jsTrim
      deviceBrand := mapDeviceBrand row.deviceBrand
      digitalInterest := mapDigitalInterest row.digitalInterest
      locationType := mapLocationType row.locationType }
  let birthOk : Bool := birthYearOkB currentYear customerData.birthYear
  let emailOk : Bool := emailOkB customerData.email
  let errs : List CSVImportError :=
    (if truthyInt customerData.number then [] else
      [⟨rowNumber, some "number", row.number, "Invalid number"⟩]) ++
    (if truthyStr customerData.locationName then [] else
      [⟨rowNumber, some "locationName", row.locationName, "Location name required"⟩]) ++
    (if truthyStr customerData.userName then [] else
      [⟨rowNumber, some "userName", row.userName, "User name required"⟩]) ++
    (if emailOk then [] else
      [⟨rowNumber, some "email", row.email, "Invalid email"⟩]) ++
    (if birthOk then [] else
      [⟨rowNumber, some "birthYear", jsOrStr row.birthYear row.age, "Invalid birth year"⟩])
  if errs.isEmpty then
    { isValid := true, data := some customerData, errors := errs }
  else
    { isValid := false, data := none, errors := errs }

/-! ## Progress records and the job registry -/

inductive ImportStatus
  | processing
  | completed
  | failed
  | cancelled
  deriving DecidableEq, Repr

/-- `CSVImportProgress` of csvImport.ts.  `startTime` and
`estimatedTimeRemaining` are wall-clock data outside the model. -/
structure CSVImportProgress where
  totalProcessed : Int
  successful : Int
  failed : Int
  currentBatch : Int
  totalBatches : Int
  percentage : ℚ
  errors : List CSVImportError
  status : ImportStatus
  deriving DecidableEq, Repr

/-- The progress record `importFromCSV` registers before the stream starts. -/
def initialProgress : CSVImportProgress :=
  { totalProcessed := 0, successful := 0, failed := 0, currentBatch := 0,
    totalBatches := 0, percentage := 0, errors := [], status := .processing }

/-- The `activeImports` map, as an association list from import id to the
job's progress record. -/
abbrev Registry := List (String × CSVImportProgress)

/-- `Map.get`. -/
def lookupJob : Registry → String → Option CSVImportProgress
  | [], _ => none
  | (k, p) :: rest, id => if k = id then some p else lookupJob rest id

/-- In-place mutation of the progress object held by the map: replace the
record stored under `id`. -/
def setJob : Registry → String → CSVImportProgress → Registry
  | [], _, _ => []
  | (k, p) :: rest, id, q => if k = id then (k, q) :: rest else (k, p) :: setJob rest id q

/-- `cancelImport` of csvImport.ts: honoured only when the job exists and its
status is `processing`; then the status is flipped to `cancelled` and `true`
returned, otherwise nothing changes and `false` is returned. -/
def cancelImport (m : Registry) (id : String) : Bool × Registry :=
  match lookupJob m id with
  | some p =>
    if p.status = .processing then
      (true, setJob m id { p with status := .cancelled })
    else (false, m)
  | none => (false, m)

/-- The effect of `cancelImport` on the one progress record it touches (used
by the stream model, where the coordinator's job is the record in focus). -/
def cancelProgress (p : CSVImportProgress) : Bool × CSVImportProgress :=
  if p.status = .processing then (true, { p with status := .cancelled })
  else (false, p)

/-! ## The stream coordinator (`processCSVStream`) -/

/-- Outcome of one `customerRepository.bulkWrite` call: either it returns with
an `insertedCount`, or it throws with a message. -/
inductive BatchOutcome
  | ok (insertedCount : Int)
  | exn (message : String)
  deriving DecidableEq, Repr

/-- The message carried by a throwing outcome. -/
def exnMessage : BatchOutcome → String
  | .ok _ => ""
  | .exn m => m

/-- Parameters of one `processCSVStream` run: the batch size chosen by
`importFromCSV` (`options.batchSize || BATCH_SIZE`), the error ceiling
(`MAX_ERRORS`, 10000 in the source; kept as a parameter, as in the spec's
scenarios), the current year seen by the transformer, and the bulk-write
oracle, indexed by the value of `processedBatches` at the moment of the
dispatch. -/
structure Config where
  batchSize : Nat
  maxErrors : Nat
  currentYear : Int
  outcomes : Nat → BatchOutcome

/-- `processBatch` of csvImport.ts: records the 1-indexed `currentBatch`, then
either books the bulk-write result (`successful += insertedCount`,
`failed += batch.length - insertedCount`), or — when the write throws — books
the whole batch as failed, appends one batch-level error and re-throws.  The
`Bool` component signals the exception propagating to the caller. -/
def processBatch (progress : CSVImportProgress) (batch : List ICustomer)
    (batchNumber : Nat) (outcome : BatchOutcome) : CSVImportProgress × Bool :=
  let progress := { progress with currentBatch := (batchNumber : Int) + 1 }
  match outcome with
  | .ok insertedCount =>
    ({ progress with
        successful := progress.successful + insertedCount,
        failed := progress.failed + ((batch.length : Int) - insertedCount) }, false)
  | .exn message =>
    ({ progress with
        failed := progress.failed + (batch.length : Int),
        errors := progress.errors ++
          [⟨-1, none, none,
            "Batch " ++ toString (batchNumber + 1) ++ " failed: " ++ jsMessageOr message⟩] },
     true)

/-- Mutable state of one `processCSVStream` run: the job's progress record,
the in-memory batch buffer, the local counters of the closure, plus two flags:
`aborted` records that the transform callback signalled an error (the stream is
destroyed, the promise rejected, and `importFromCSV`'s catch ran), `done` that
the `end` handler ran.  `dispatches` is a ghost counter of `processBatch`
invocations. -/
structure StreamState where
  progress : CSVImportProgress
  batch : List ICustomer
  rowNumber : Nat
  processedBatches : Nat
  dispatches : Nat
  aborted : Bool
  done : Bool
  deriving DecidableEq, Repr

/-- The state at which `processCSVStream` starts. -/
def initState : StreamState :=
  { progress := initialProgress, batch := [], rowNumber := 0,
    processedBatches := 0, dispatches := 0, aborted := false, done := false }

/-- The progress percentage written after each record:
`Math.min((rowNumber / 100000) * 100, 99)`. -/
def percentageOf (rowNumber : Nat) : ℚ :=
  min ((rowNumber : ℚ) / 100000 * 100) 99

/-- Book one transformed row: a valid row is appended to the batch buffer, an
invalid one bumps `failed` by one and appends all its errors. -/
def bookRow (t : TransformResult) (progress : CSVImportProgress)
    (batch : List ICustomer) : CSVImportProgress × List ICustomer :=
  if t.isValid then (progress, batch ++ t.data.toList)
  else
    ({ progress with
        failed := progress.failed + 1,
        errors := progress.errors ++ t.errors }, batch)

/-- Dispatch the buffer through `processBatch` when it has reached
`batchSize`, applying the stream callback's own `catch` booking (a second
`failed += batch.length` and a second batch-level error, this one formatted
with the 0-indexed `processedBatches`) when the write throws; in either case
the buffer is cleared and `processedBatches` advances.  Returns the new
progress, buffer, `processedBatches` and (ghost) dispatch count. -/
def dispatchFullBatch (cfg : Config) (progress : CSVImportProgress)
    (batch : List ICustomer) (processedBatches dispatches : Nat) :
    CSVImportProgress × List ICustomer × Nat × Nat :=
  if batch.length ≥ cfg.batchSize then
    let o := cfg.outcomes processedBatches
    let pb := processBatch progress batch processedBatches o
    if pb.2 then
      ({ pb.1 with
          failed := pb.1.failed + (batch.length : Int),
          errors := pb.1.errors ++
            [⟨-1, none, none,
              "Batch " ++ toString processedBatches ++ " failed: " ++
                jsMessageOr (exnMessage o)⟩] },
       [], processedBatches + 1, dispatches + 1)
    else (pb.1, [], processedBatches + 1, dispatches + 1)
  else (progress, batch, processedBatches, dispatches)

/-- One pass of the `Transform` callback on a chunk: count the row, transform
it, buffer it or book its errors, dispatch a full batch, update
`totalProcessed` and `percentage`, and finally run the error-ceiling check,
whose failure destroys the stream and lands in `importFromCSV`'s catch
(status `failed`, one job-level error). -/
def recordStep (cfg : Config) (s : StreamState) (r : RawRow) : StreamState :=
  let rowNumber := s.rowNumber + 1
  let t := transformCSVRow cfg.currentYear r (rowNumber : Int)
  let afterRow := bookRow t s.progress s.batch
  let afterBatch :=
    dispatchFullBatch cfg afterRow.1 afterRow.2 s.processedBatches s.dispatches
  let progress :=
    { afterBatch.1 with
        totalProcessed := (rowNumber : Int),
        percentage := percentageOf rowNumber }
  if progress.errors.length > cfg.maxErrors then
    { progress :=
        { progress with
            status := .failed,
            errors := progress.errors ++
              [⟨-1, none, none, "Import failed: Too many validation errors"⟩] },
      batch := afterBatch.2.1, rowNumber := rowNumber,
      processedBatches := afterBatch.2.2.1, dispatches := afterBatch.2.2.2,
      aborted := true, done := false }
  else
    { progress := progress, batch := afterBatch.2.1, rowNumber := rowNumber,
      processedBatches := afterBatch.2.2.1, dispatches := afterBatch.2.2.2,
      aborted := false, done := false }

/-- Flush the final partial batch, if any, through `processBatch`, with the
`end` handler's own extra `catch` booking when it throws — and, in that case,
no `processedBatches` increment.  Returns the new progress,
`processedBatches` and dispatch count. -/
def flushFinalBatch (cfg : Config) (progress : CSVImportProgress)
    (batch : List ICustomer) (processedBatches dispatches : Nat) :
    CSVImportProgress × Nat × Nat :=
  if batch.length > 0 then
    let o := cfg.outcomes processedBatches
    let pb := processBatch progress batch processedBatches o
    if pb.2 then
      ({ pb.1 with
          failed := pb.1.failed + (batch.length : Int),
          errors := pb.1.errors ++
            [⟨-1, none, none,
              "Final batch failed: " ++ jsMessageOr (exnMessage o)⟩] },
       processedBatches, dispatches + 1)
    else (pb.1, processedBatches + 1, dispatches + 1)
  else (progress, processedBatches, dispatches)

/-- The `end` handler: flush the final partial batch, then finalize
unconditionally: status `completed`, percentage 100, `currentBatch` and
`totalBatches` set to `processedBatches`. -/
def endStep (cfg : Config) (s : StreamState) : StreamState :=
  let flushed :=
    flushFinalBatch cfg s.progress s.batch s.processedBatches s.dispatches
  { progress :=
      { flushed.1 with
          status := .completed,
          percentage := 100,
          currentBatch := (flushed.2.1 : Int),
          totalBatches := (flushed.2.1 : Int) },
    batch := s.batch, rowNumber := s.rowNumber,
    processedBatches := flushed.2.1, dispatches := flushed.2.2,
    aborted := false, done := true }

/-- Events a run consists of: records delivered by the parser, the
end-of-stream signal, and `cancelImport` calls interleaved between chunks.
After the stream is destroyed (`aborted`) or ended (`done`) no further stream
events are delivered, so both kinds of step are the identity there;
`cancelImport` can be called at any time and is governed by the status check
alone. -/
inductive Ev
  | record (r : RawRow)
  | cancel
  | endOfStream

/-- One step of the whole system. -/
def step (cfg : Config) (s : StreamState) : Ev → StreamState
  | .record r => if s.aborted || s.done then s else recordStep cfg s r
  | .cancel => { s with progress := (cancelProgress s.progress).2 }
  | .endOfStream => if s.aborted || s.done then s else endStep cfg s

/-- Execute a run from the initial state. -/
def run (cfg : Config) (evs : List Ev) : StreamState :=
  evs.foldl (step cfg) initState

/-- A state the coordinator can actually be observed in. -/
def Reachable (cfg : Config) (s : StreamState) : Prop :=
  ∃ evs, run cfg evs = s

/-! ## The checks `transformCSVRow` actually enforces, field by field -/

/-- The `number` requirement enforced by `!customerData.number`: `parseInt` of
the raw field yields a nonzero value (`NaN` and `0` are falsy; negative values
pass). -/
def numberCheckB (r : RawRow) : Bool :=
  truthyInt (parseIntJS r.number)

/-- The presence requirement enforced on `locationName` and `userName`: the
field is present and nonempty after trimming. -/
def presentCheckB (f : Option String) : Bool :=
  truthyStr (f.map jsTrim)

/-- The email requirement: the normalized (lowercased, trimmed) email is
nonempty and matches the pattern. -/
def emailCheckB (r : RawRow) : Bool :=
  emailOkB (normalizedEmail r)

/-- The birth-year requirement: `parseInt(row.birthYear || row.age)` yields a
truthy value within `[1900, currentYear]`. -/
def birthYearCheckB (currentYear : Int) (r : RawRow) : Bool :=
  birthYearOkB currentYear (parseIntJS (jsOrStr r.birthYear r.age))

/-- The five per-check error entries of one row, in the order the checks run
in the source. -/
def errListOf (currentYear : Int) (r : RawRow) (n : Int) : List CSVImportError :=
  (if numberCheckB r then [] else
    [⟨n, some "number", r.number, "Invalid number"⟩]) ++
  (if presentCheckB r.locationName then [] else
    [⟨n, some "locationName", r.locationName, "Location name required"⟩]) ++
  (if presentCheckB r.userName then [] else
    [⟨n, some "userName", r.userName, "User name required"⟩]) ++
  (if emailCheckB r then [] else
    [⟨n, some "email", r.email, "Invalid email"⟩]) ++
  (if birthYearCheckB currentYear r then [] else
    [⟨n, some "birthYear", jsOrStr r.birthYear r.age, "Invalid birth year"⟩])

/-- All five checks at once. -/
def rowChecksB (currentYear : Int) (r : RawRow) : Bool :=
  numberCheckB r && presentCheckB r.locationName && presentCheckB r.userName &&
    emailCheckB r && birthYearCheckB currentYear r

/-- The `customerData` entity `transformCSVRow` builds from a raw row. -/
def customerOf (r : RawRow) : ICustomer :=
  { number := parseIntJS r.number
    locationName := r.locationName.map jsTrim
    date := r.date
    loginHour := r.loginHour.map jsTrim
    userName := r.userName.map jsTrim
    birthYear := parseIntJS (jsOrStr r.birthYear r.age)
    gender := mapGender r.gender
    email := normalizedEmail r
    phoneNumber := r.phoneNumber.map jsTrim
    deviceBrand := mapDeviceBrand r.deviceBrand
    digitalInterest := mapDigitalInterest r.digitalInterest
    locationType := mapLocationType r.locationType }

/-- The row-validity predicate as the spec words it (the comparison point for
claim C5): the identifier field is a *positive* integer, location and user
names are present, the email matches the basic pattern, and the birth-year
field lies within `[1900, currentYear]`. -/
def specRowPassesChecks (currentYear : Int) (r : RawRow) : Bool :=
  (match parseIntJS r.number with
   | some v => decide (0 < v)
   | none => false) &&
  presentCheckB r.locationName && presentCheckB r.userName &&
  (match normalizedEmail r with
   | some e => isValidEmail e
   | none => false) &&
  (match parseIntJS (jsOrStr r.birthYear r.age) with
   | some b => decide (1900 ≤ b) && decide (b ≤ currentYear)
   | none => false)

/-- Uppercase ASCII letter test, stated on code points. -/
def isAsciiUpper (c : Char) : Bool :=
  decide (65 ≤ c.toNat) && decide (c.toNat ≤ 90)

/-! ## Inductive invariant of the stream state machine -/

/-- Facts preserved by every step from the initial state: a finished job is
`completed` at 100%; a not-yet-finished job shows exactly the per-record
percentage estimate and is never `completed`; a destroyed stream belongs to a
`failed` job; and as long as the stream is alive the error ceiling has not
been breached (the per-record circuit breaker fires the moment it is). -/
def MainInv (cfg : Config) (s : StreamState) : Prop :=
  (s.done = true →
    s.progress.status = .completed ∧ s.progress.percentage = 100 ∧ s.aborted = false)
  ∧ (s.done = false →
    s.progress.percentage = percentageOf s.rowNumber ∧ s.progress.status ≠ .completed)
  ∧ (s.aborted = true → s.progress.status = .failed)
  ∧ (s.aborted = false → s.done = false → s.progress.errors.length ≤ cfg.maxErrors)

/-! ## Concrete data used to instantiate the claims -/

/-- A row that passes every check. -/
def validRow : RawRow :=
  { number := some "1", locationName := some "Mall A", userName := some "Ann",
    email := some "ann@example.com", birthYear := some "1990" }

/-- A row with every field missing: all five checks fail. -/
def emptyRow : RawRow := {}

/-- The valid row with a negative identifier. -/
def negativeNumberRow : RawRow := { validRow with number := some "-7" }

/-- Batch size 1, every bulk write throws. -/
def cfgExn : Config :=
  { batchSize := 1, maxErrors := 10000, currentYear := 2026,
    outcomes := fun _ => .exn "boom" }

/-- Batch size 2, the second dispatch throws, the others insert fully. -/
def cfgSecondBatchThrows : Config :=
  { batchSize := 2, maxErrors := 10000, currentYear := 2026,
    outcomes := fun i => if i = 1 then .exn "boom" else .ok 2 }

/-- The source defaults: batch size 1000, ceiling 10000, writes succeed. -/
def cfgPlain : Config :=
  { batchSize := 1000, maxErrors := 10000, currentYear := 2026,
    outcomes := fun _ => .ok 0 }

/-- Error ceiling 0 and a throwing writer. -/
def cfgCeilingZeroThrows : Config :=
  { batchSize := 2, maxErrors := 0, currentYear := 2026,
    outcomes := fun _ => .exn "boom" }

/-- Error ceiling 0, writes succeed. -/
def cfgCeilingZero : Config :=
  { batchSize := 2, maxErrors := 0, currentYear := 2026,
    outcomes := fun _ => .ok 0 }

/-- Batch size 2, every write inserts both rows. -/
def cfgPairs : Config :=
  { batchSize := 2, maxErrors := 10000, currentYear := 2026,
    outcomes := fun _ => .ok 2 }

/-- Five valid records, the source of spec Scenario D. -/
def fiveValidRows : List RawRow := List.replicate 5 validRow

/-- A registry with one processing job and one completed job. -/
def sampleRegistry : Registry :=
  [("job-a", initialProgress), ("job-b", { initialProgress with status := .completed })]

/-- The valid row with a mixed-case, padded email. -/
def mixedCaseRow : RawRow := { validRow with email := some " AnN@Example.Com " }

/-! # Theorems -/

/-- Claim C1 (refuted by the code): at an observation point with no batch in
flight and no valid rows buffered, a run of a single valid record whose batch
write threw shows `successful + failed = 2` against `totalProcessed = 1`:
`processBatch`'s catch and the stream callback's catch each add the batch
size to `failed`, so the books do not balance. -/
theorem c1_counter_books_broken_by_write_exception :
    (run cfgExn [Ev.record validRow]).batch = [] ∧
    (run cfgExn [Ev.record validRow]).aborted = false ∧
    (run cfgExn [Ev.record validRow]).progress.totalProcessed = 1 ∧
    (run cfgExn [Ev.record validRow]).progress.successful = 0 ∧
    (run cfgExn [Ev.record validRow]).progress.failed = 2 ∧
    (run cfgExn [Ev.record validRow]).progress.successful +
        (run cfgExn [Ev.record validRow]).progress.failed ≠
      (run cfgExn [Ev.record validRow]).progress.totalProcessed := by
  decide

/-- Claim C2 (refuted by the code): six valid rows in batches of two, with the
second write throwing.  The thrown batch is booked twice (`failed = 4`, not 2)
and two batch-level errors are appended (not one); the parts of the claim
about advancing past the failure do hold — all three batches are consumed and
the job still completes. -/
theorem c2_batch_write_exception_double_booked :
    (run cfgSecondBatchThrows (List.replicate 6 (Ev.record validRow))).progress.failed = 4 ∧
    (run cfgSecondBatchThrows (List.replicate 6 (Ev.record validRow))).progress.errors.length = 2 ∧
    (run cfgSecondBatchThrows (List.replicate 6 (Ev.record validRow))).progress.successful = 4 ∧
    (run cfgSecondBatchThrows
        (List.replicate 6 (Ev.record validRow) ++ [Ev.endOfStream])).progress.status =
      ImportStatus.completed ∧
    (run cfgSecondBatchThrows
        (List.replicate 6 (Ev.record validRow) ++ [Ev.endOfStream])).progress.totalBatches = 3 := by
  decide

/-- Claim C3 (refuted by the code): after a cancellation request flips the
status to `cancelled`, the coordinator keeps processing records (the record
loop never reads `status`), and the `end` handler unconditionally overwrites
the status with `completed`. -/
theorem c3_cancellation_ignored_then_overwritten :
    (run cfgPlain [Ev.record validRow, Ev.cancel]).progress.status =
      ImportStatus.cancelled ∧
    (run cfgPlain [Ev.record validRow, Ev.cancel, Ev.record validRow]).progress.totalProcessed = 2 ∧
    (run cfgPlain
        [Ev.record validRow, Ev.cancel, Ev.record validRow, Ev.endOfStream]).progress.status =
      ImportStatus.completed := by
  decide

/-- Counterexample to claim C4 as stated: with error ceiling 0, one buffered
valid row and a throwing writer, the end-of-stream flush pushes the error
count past the ceiling, yet the job finishes `completed`, not `failed` — the
ceiling is only checked inside the record loop. -/
theorem c4_counterexample_breach_at_final_flush :
    (run cfgCeilingZeroThrows [Ev.record validRow, Ev.endOfStream]).progress.errors.length >
      cfgCeilingZeroThrows.maxErrors ∧
    (run cfgCeilingZeroThrows [Ev.record validRow, Ev.endOfStream]).progress.status =
      ImportStatus.completed := by
  decide

/-- Counterexample to claim C5 as stated: the identifier check is JavaScript
truthiness of `parseInt`, not positivity — the row with `number = "-7"` fails
the spec-worded checks yet is transformed as valid with no error. -/
theorem c5_counterexample_negative_identifier_accepted :
    specRowPassesChecks 2026 negativeNumberRow = false ∧
    parseIntJS negativeNumberRow.number = some (-7) ∧
    (transformCSVRow 2026 negativeNumberRow 1).isValid = true ∧
    (transformCSVRow 2026 negativeNumberRow 1).errors = [] := by
  decide

/-- Counterexample to claim C6 as stated: `LocationType` has no `Other`
member at all (its declaration above has exactly the three constructors
`URBAN`, `SUBURBAN`, `RURAL`), and the unrecognized input `"mall"` — like the
missing input — is mapped to `URBAN`, the very value the recognized input
`"urban"` maps to, not to a dedicated sentinel. -/
theorem c6_counterexample_locationType_has_no_other :
    mapLocationType (some "mall") = LocationType.URBAN ∧
    mapLocationType none = LocationType.URBAN ∧
    mapLocationType (some "urban") = LocationType.URBAN := by
  decide

/-! ## The job registry (claim C9) -/

/-- After replacing the record under `id`, looking `id` up finds the new
record, provided `id` was present. -/
theorem lookupJob_setJob_self (id : String) (q : CSVImportProgress) :
    ∀ m : Registry, lookupJob m id ≠ none → lookupJob (setJob m id q) id = some q := by
  intro m
  induction m with
  | nil => intro h; exact absurd rfl h
  | cons kv rest ih =>
    intro h
    by_cases hk : kv.1 = id
    · simp [lookupJob, setJob, hk]
    · simp only [lookupJob, setJob, if_neg hk] at h ⊢
      exact ih h

/-- Replacing the record under `id` does not change any other key's lookup. -/
theorem lookupJob_setJob_other (id id2 : String) (q : CSVImportProgress)
    (hne : id2 ≠ id) :
    ∀ m : Registry, lookupJob (setJob m id q) id2 = lookupJob m id2 := by
  intro m
  induction m with
  | nil => rfl
  | cons kv rest ih =>
    obtain ⟨k, p⟩ := kv
    by_cases hk : k = id
    · have hk2 : ¬ (k = id2) := fun h => hne (by rw [← h, hk])
      simp only [setJob, lookupJob, if_pos hk, if_neg hk2]
    · simp only [setJob, lookupJob, if_neg hk]
      by_cases hk2 : k = id2
      · simp only [lookupJob, if_pos hk2]
      · simp only [lookupJob, if_neg hk2, ih]

/-- Claim C9: `cancelImport` returns `false` and leaves the whole registry —
in particular the job's record — untouched when the id is unknown or the job
is not `processing`; it returns `true` exactly when the job is `processing`,
and then flips that job's status to `cancelled` without touching any other
entry. -/
theorem c9_cancelImport_spec (m : Registry) (id : String) :
    (lookupJob m id = none → cancelImport m id = (false, m))
  ∧ (∀ p, lookupJob m id = some p → p.status ≠ .processing →
      cancelImport m id = (false, m))
  ∧ (∀ p, lookupJob m id = some p → p.status = .processing →
      (cancelImport m id).1 = true ∧
      lookupJob (cancelImport m id).2 id = some { p with status := .cancelled } ∧
      (∀ id2, id2 ≠ id →
        lookupJob (cancelImport m id).2 id2 = lookupJob m id2))
  ∧ ((cancelImport m id).1 = true →
      ∃ p, lookupJob m id = some p ∧ p.status = .processing) := by
  refine ⟨?_, ?_, ?_, ?_⟩
  · intro h; simp [cancelImport, h]
  · intro p hp hs; simp [cancelImport, hp, hs]
  · intro p hp hs
    have hc : cancelImport m id =
        (true, setJob m id { p with status := .cancelled }) := by
      simp [cancelImport, hp, hs]
    refine ⟨by simp [hc], ?_, ?_⟩
    · rw [hc]
      exact lookupJob_setJob_self id _ m (by simp [hp])
    · intro id2 h2
      rw [hc]
      exact lookupJob_setJob_other id id2 _ h2 m
  · intro h
    by_cases hl : lookupJob m id = none
    · simp [cancelImport, hl] at h
    · obtain ⟨p, hp⟩ := Option.ne_none_iff_exists'.mp hl
      by_cases hs : p.status = ImportStatus.processing
      · exact ⟨p, hp, hs⟩
      · simp [cancelImport, hp, hs] at h

/-- Witness for C9 at a concrete registry: cancelling the processing job
succeeds and touches only that entry; cancelling an unknown id or the
completed job returns `false` with the registry unchanged. -/
theorem c9_cancelImport_witness :
    (cancelImport sampleRegistry "job-a").1 = true ∧
    lookupJob (cancelImport sampleRegistry "job-a").2 "job-a" =
      some { initialProgress with status := .cancelled } ∧
    lookupJob (cancelImport sampleRegistry "job-a").2 "job-b" =
      lookupJob sampleRegistry "job-b" ∧
    cancelImport sampleRegistry "job-c" = (false, sampleRegistry) ∧
    cancelImport sampleRegistry "job-b" = (false, sampleRegistry) := by
  refine ⟨?_, ?_, ?_, ?_, ?_⟩
  · exact ((c9_cancelImport_spec sampleRegistry "job-a").2.2.1 initialProgress
      (by decide) rfl).1
  · exact ((c9_cancelImport_spec sampleRegistry "job-a").2.2.1 initialProgress
      (by decide) rfl).2.1
  · exact ((c9_cancelImport_spec sampleRegistry "job-a").2.2.1 initialProgress
      (by decide) rfl).2.2 "job-b" (by decide)
  · exact (c9_cancelImport_spec sampleRegistry "job-c").1 (by decide)
  · exact (c9_cancelImport_spec sampleRegistry "job-b").2.1
      { initialProgress with status := .completed } (by decide) (by decide)

/-! ## The shape of `transformCSVRow` (claims C5, C6, C10) -/

/-- Emptiness of the five-slot error list is the conjunction of the five
checks. -/
theorem isEmpty_five_checks (c1 c2 c3 c4 c5 : Bool) (x1 x2 x3 x4 x5 : CSVImportError) :
    ((if c1 then [] else [x1]) ++ (if c2 then [] else [x2]) ++ (if c3 then [] else [x3]) ++
      (if c4 then [] else [x4]) ++ (if c5 then [] else [x5]) : List CSVImportError).isEmpty =
      (c1 && c2 && c3 && c4 && c5) := by
  cases c1 <;> cases c2 <;> cases c3 <;> cases c4 <;> cases c5 <;> rfl

/-- A row's error list is empty exactly when all five checks pass. -/
theorem errListOf_isEmpty (y : Int) (r : RawRow) (n : Int) :
    (errListOf y r n).isEmpty = rowChecksB y r := by
  unfold errListOf rowChecksB
  exact isEmpty_five_checks _ _ _ _ _ _ _ _ _ _

/-- Closed form of `transformCSVRow`: valid with the built entity when all
checks pass, otherwise invalid with the per-check error list. -/
theorem transformCSVRow_eq (y : Int) (r : RawRow) (n : Int) :
    transformCSVRow y r n =
      if rowChecksB y r then
        { isValid := true, data := some (customerOf r), errors := errListOf y r n }
      else { isValid := false, data := none, errors := errListOf y r n } := by
  simp only [transformCSVRow, customerOf, errListOf, rowChecksB, numberCheckB,
    presentCheckB, emailCheckB, birthYearCheckB]
  rw [isEmpty_five_checks]

/-- The transformer's error list, in closed form. -/
theorem transformCSVRow_errors (y : Int) (r : RawRow) (n : Int) :
    (transformCSVRow y r n).errors = errListOf y r n := by
  rw [transformCSVRow_eq]
  split <;> rfl

/-- The transformer's verdict, in closed form. -/
theorem transformCSVRow_isValid (y : Int) (r : RawRow) (n : Int) :
    (transformCSVRow y r n).isValid = rowChecksB y r := by
  rw [transformCSVRow_eq]
  split
  next h => rw [h]
  next h =>
    simp only [Bool.not_eq_true] at h
    rw [h]

/-- Claim C5 (amended): the transformer marks a row invalid exactly when one
of the five checks fails, and then its error list carries exactly one entry —
with field name, offending raw value and message — for every violated check;
the checks are: the identifier parses to a *nonzero* value (`parseInt`
truthiness, not positivity — see the counterexample above), location and user
names
are present and nonempty after trimming, the normalized email matches the
`local@domain.tld` pattern, and the birth-year field lies within
`[1900, currentYear]`. -/
theorem c5_transform_collects_all_violations (y : Int) (r : RawRow) (n : Int) :
    ((transformCSVRow y r n).isValid = true ↔
      numberCheckB r = true ∧ presentCheckB r.locationName = true ∧
        presentCheckB r.userName = true ∧ emailCheckB r = true ∧
        birthYearCheckB y r = true)
  ∧ (numberCheckB r = false ↔
      (⟨n, some "number", r.number, "Invalid number"⟩ : CSVImportError) ∈
        (transformCSVRow y r n).errors)
  ∧ (presentCheckB r.locationName = false ↔
      (⟨n, some "locationName", r.locationName, "Location name required"⟩ : CSVImportError) ∈
        (transformCSVRow y r n).errors)
  ∧ (presentCheckB r.userName = false ↔
      (⟨n, some "userName", r.userName, "User name required"⟩ : CSVImportError) ∈
        (transformCSVRow y r n).errors)
  ∧ (emailCheckB r = false ↔
      (⟨n, some "email", r.email, "Invalid email"⟩ : CSVImportError) ∈
        (transformCSVRow y r n).errors)
  ∧ (birthYearCheckB y r = false ↔
      (⟨n, some "birthYear", jsOrStr r.birthYear r.age, "Invalid birth year"⟩ : CSVImportError) ∈
        (transformCSVRow y r n).errors)
  ∧ (transformCSVRow y r n).errors.length =
      ((if numberCheckB r then 0 else 1) + (if presentCheckB r.locationName then 0 else 1) +
        (if presentCheckB r.userName then 0 else 1) + (if emailCheckB r then 0 else 1) +
        (if birthYearCheckB y r then 0 else 1)) := by
  rw [transformCSVRow_isValid, transformCSVRow_errors]
  unfold rowChecksB errListOf
  cases h1 : numberCheckB r <;> cases h2 : presentCheckB r.locationName <;>
    cases h3 : presentCheckB r.userName <;> cases h4 : emailCheckB r <;>
    cases h5 : birthYearCheckB y r <;>
    simp

/-- An input not normalizing to a recognized gender falls back to
`Gender.OTHER`. -/
theorem mapGender_fallback (s : String)
    (h : jsTrim (jsToLowerCase s) ∉ (["male", "m", "female", "f"] : List String)) :
    mapGender (some s) = Gender.OTHER := by
  simp only [List.mem_cons, List.not_mem_nil, or_false, not_or] at h
  obtain ⟨h1, h2, h3, h4⟩ := h
  simp [mapGender, h1, h2, h3, h4]

/-- An input not normalizing to a recognized brand falls back to
`DeviceBrand.OTHER`. -/
theorem mapDeviceBrand_fallback (s : String)
    (h : jsTrim (jsToLowerCase s) ∉
      (["samsung", "apple", "huawei", "xiaomi", "oppo", "vivo"] : List String)) :
    mapDeviceBrand (some s) = DeviceBrand.OTHER := by
  simp only [List.mem_cons, List.not_mem_nil, or_false, not_or] at h
  obtain ⟨h1, h2, h3, h4, h5, h6⟩ := h
  simp [mapDeviceBrand, h1, h2, h3, h4, h5, h6]

/-- An input not normalizing to a recognized interest falls back to
`DigitalInterest.OTHER`. -/
theorem mapDigitalInterest_fallback (s : String)
    (h : jsTrim (jsToLowerCase s) ∉
      (["social media", "gaming", "shopping", "news", "entertainment", "education",
        "health", "finance", "travel", "food"] : List String)) :
    mapDigitalInterest (some s) = DigitalInterest.OTHER := by
  simp only [List.mem_cons, List.not_mem_nil, or_false, not_or] at h
  obtain ⟨h1, h2, h3, h4, h5, h6, h7, h8, h9, h10⟩ := h
  simp [mapDigitalInterest, h1, h2, h3, h4, h5, h6, h7, h8, h9, h10]

/-- An input not normalizing to a recognized location type falls back to
`LocationType.URBAN`. -/
theorem mapLocationType_fallback (s : String)
    (h : jsTrim (jsToLowerCase s) ∉
      (["urban", "sub urban", "suburban", "rural"] : List String)) :
    mapLocationType (some s) = LocationType.URBAN := by
  simp only [List.mem_cons, List.not_mem_nil, or_false, not_or] at h
  obtain ⟨h1, h2, h3, h4⟩ := h
  simp [mapLocationType, h1, h2, h3, h4]

/-- The row verdict does not depend on the four category fields. -/
theorem transform_isValid_ignores_categories (y : Int) (r : RawRow) (n : Int)
    (g d i l : Option String) :
    (transformCSVRow y
        { r with gender := g, deviceBrand := d, digitalInterest := i,
                 locationType := l } n).isValid =
      (transformCSVRow y r n).isValid := by
  rw [transformCSVRow_isValid, transformCSVRow_isValid]
  rfl

/-- Claim C6 (amended): a missing or unrecognized category input falls back to
the `OTHER` member for gender, device brand and digital interest, but to
`URBAN` for location type (whose enum has no `OTHER` member — see the
counterexample above); and a row is never rejected
because of its category values — the verdict is invariant under changing all
four of them. -/
theorem c6_category_fallbacks :
    (mapGender none = Gender.OTHER ∧
      ∀ s : String,
        jsTrim (jsToLowerCase s) ∉ (["male", "m", "female", "f"] : List String) →
        mapGender (some s) = Gender.OTHER)
  ∧ (mapDeviceBrand none = DeviceBrand.OTHER ∧
      ∀ s : String,
        jsTrim (jsToLowerCase s) ∉
            (["samsung", "apple", "huawei", "xiaomi", "oppo", "vivo"] : List String) →
        mapDeviceBrand (some s) = DeviceBrand.OTHER)
  ∧ (mapDigitalInterest none = DigitalInterest.OTHER ∧
      ∀ s : String,
        jsTrim (jsToLowerCase s) ∉
            (["social media", "gaming", "shopping", "news", "entertainment",
              "education", "health", "finance", "travel", "food"] : List String) →
        mapDigitalInterest (some s) = DigitalInterest.OTHER)
  ∧ (mapLocationType none = LocationType.URBAN ∧
      ∀ s : String,
        jsTrim (jsToLowerCase s) ∉
            (["urban", "sub urban", "suburban", "rural"] : List String) →
        mapLocationType (some s) = LocationType.URBAN)
  ∧ (∀ (y : Int) (r : RawRow) (n : Int) (g d i l : Option String),
      (transformCSVRow y
          { r with gender := g, deviceBrand := d, digitalInterest := i,
                   locationType := l } n).isValid =
        (transformCSVRow y r n).isValid) :=
  ⟨⟨rfl, mapGender_fallback⟩, ⟨rfl, mapDeviceBrand_fallback⟩,
    ⟨rfl, mapDigitalInterest_fallback⟩, ⟨rfl, mapLocationType_fallback⟩,
    transform_isValid_ignores_categories⟩

/-- Witness for C6 at concrete unrecognized inputs. -/
theorem c6_category_fallbacks_witness :
    mapGender (some "XyZ") = Gender.OTHER ∧
    mapDeviceBrand (some "Nokia") = DeviceBrand.OTHER ∧
    mapDigitalInterest (some "sports") = DigitalInterest.OTHER ∧
    mapLocationType (some "beach") = LocationType.URBAN ∧
    (transformCSVRow 2026
        { validRow with
            gender := some "XyZ", deviceBrand := some "Nokia",
            digitalInterest := some "sports", locationType := some "beach" } 1).isValid =
      (transformCSVRow 2026 validRow 1).isValid := by
  refine ⟨?_, ?_, ?_, ?_, ?_⟩
  · exact c6_category_fallbacks.1.2 "XyZ" (by decide)
  · exact c6_category_fallbacks.2.1.2 "Nokia" (by decide)
  · exact c6_category_fallbacks.2.2.1.2 "sports" (by decide)
  · exact c6_category_fallbacks.2.2.2.1.2 "beach" (by decide)
  · exact c6_category_fallbacks.2.2.2.2 2026 validRow 1 (some "XyZ") (some "Nokia")
      (some "sports") (some "beach")

/-! ## Email normalization (claim C10) -/

/-- `Char.ofNat` round-trips on valid code points. -/
theorem char_toNat_ofNat_valid {m : Nat} (h : Nat.isValidChar m) :
    (Char.ofNat m).toNat = m := by
  rw [Char.ofNat, dif_pos h]
  rfl

/-- Lowercasing a character never yields an ASCII uppercase letter. -/
theorem isAsciiUpper_toLower (c : Char) : isAsciiUpper (Char.toLower c) = false := by
  simp only [Char.toLower]
  split
  next h =>
    have hv : Nat.isValidChar (c.toNat + 32) := Or.inl (by omega)
    unfold isAsciiUpper
    rw [char_toNat_ofNat_valid hv]
    have h90 : ¬ (c.toNat + 32 ≤ 90) := by omega
    simp [h90]
  next h =>
    unfold isAsciiUpper
    simp only [Bool.and_eq_false_iff, decide_eq_false_iff_not]
    omega

/-- Trimming only discards characters. -/
theorem mem_jsTrimList {c : Char} {l : List Char} (h : c ∈ jsTrimList l) : c ∈ l := by
  unfold jsTrimList at h
  rw [List.mem_reverse] at h
  have h2 := (List.dropWhile_sublist _).subset h
  rw [List.mem_reverse] at h2
  exact (List.dropWhile_sublist _).subset h2

/-- `dropWhile` keeps the last element when its result is nonempty. -/
theorem getLast?_dropWhile_ne_nil (p : Char → Bool) :
    ∀ l : List Char, l.dropWhile p ≠ [] → (l.dropWhile p).getLast? = l.getLast? := by
  intro l
  induction l with
  | nil => intro h; exact absurd rfl h
  | cons a t ih =>
    intro h
    rw [List.dropWhile_cons] at h ⊢
    by_cases hp : p a = true
    · rw [if_pos hp] at h ⊢
      have ht : t ≠ [] := by
        intro h0
        rw [h0] at h
        exact h rfl
      rw [ih h]
      cases t with
      | nil => exact absurd rfl ht
      | cons b t2 => rw [List.getLast?_cons_cons]
    · rw [if_neg hp]

/-- A trimmed list never starts with whitespace. -/
theorem jsTrimList_head_not_ws (l : List Char) (c : Char)
    (hc : (jsTrimList l).head? = some c) : jsWhitespace c = false := by
  unfold jsTrimList at hc
  rw [List.head?_reverse] at hc
  have hne : (List.dropWhile jsWhitespace (List.dropWhile jsWhitespace l).reverse) ≠ [] := by
    intro h0
    rw [h0] at hc
    cases hc
  rw [getLast?_dropWhile_ne_nil _ _ hne, List.getLast?_reverse] at hc
  have hd := List.head?_dropWhile_not jsWhitespace l
  rw [hc] at hd
  exact hd

/-- A trimmed list never ends with whitespace. -/
theorem jsTrimList_getLast_not_ws (l : List Char) (c : Char)
    (hc : (jsTrimList l).getLast? = some c) : jsWhitespace c = false := by
  unfold jsTrimList at hc
  rw [List.getLast?_reverse] at hc
  have hd := List.head?_dropWhile_not jsWhitespace (List.dropWhile jsWhitespace l).reverse
  rw [hc] at hd
  exact hd

/-- Claim C10: the transformer normalizes a present email by lowercasing then
trimming it; that normalized string has no ASCII uppercase letter and neither
starts nor ends with whitespace; every entity the transformer emits carries
exactly the normalized email; and the email check is decided on the normalized
string, not the raw input. -/
theorem c10_email_normalization (y : Int) (r : RawRow) (n : Int) (s : String)
    (hs : r.email = some s) :
    normalizedEmail r = some (jsTrim (jsToLowerCase s))
  ∧ (∀ c ∈ (jsTrim (jsToLowerCase s)).data, isAsciiUpper c = false)
  ∧ (∀ c, (jsTrim (jsToLowerCase s)).data.head? = some c → jsWhitespace c = false)
  ∧ (∀ c, (jsTrim (jsToLowerCase s)).data.getLast? = some c → jsWhitespace c = false)
  ∧ (∀ cust, (transformCSVRow y r n).data = some cust →
      cust.email = some (jsTrim (jsToLowerCase s)))
  ∧ emailCheckB r =
      (decide (jsTrim (jsToLowerCase s) ≠ "") &&
        isValidEmail (jsTrim (jsToLowerCase s))) := by
  have hne : normalizedEmail r = some (jsTrim (jsToLowerCase s)) := by
    rw [normalizedEmail, hs, Option.map_some']
  refine ⟨hne, ?_, ?_, ?_, ?_, ?_⟩
  · intro c hc
    have hc2 : c ∈ (jsToLowerCase s).data := mem_jsTrimList hc
    rw [jsToLowerCase] at hc2
    obtain ⟨c0, -, rfl⟩ := List.mem_map.mp hc2
    exact isAsciiUpper_toLower c0
  · intro c hc
    exact jsTrimList_head_not_ws _ _ hc
  · intro c hc
    exact jsTrimList_getLast_not_ws _ _ hc
  · intro cust hcust
    rw [transformCSVRow_eq] at hcust
    split at hcust
    · have h2 : some (customerOf r) = some cust := hcust
      injection h2 with h3
      rw [← h3]
      exact hne
    · cases hcust
  · rw [emailCheckB, hne]
    rfl

/-- Witness for C10 at a concrete mixed-case padded email. -/
theorem c10_email_normalization_witness :
    normalizedEmail mixedCaseRow = some "ann@example.com" ∧
    emailCheckB mixedCaseRow = true := by
  have h := c10_email_normalization 2026 mixedCaseRow 1 " AnN@Example.Com " rfl
  constructor
  · rw [h.1]
    decide
  · rw [h.2.2.2.2.2]
    decide

/-! ## Stream-machine invariants (claims C4, C8) -/

/-- `processBatch` never touches `status` or `percentage`. -/
theorem processBatch_fields (p : CSVImportProgress) (b : List ICustomer)
    (n : Nat) (o : BatchOutcome) :
    (processBatch p b n o).1.status = p.status ∧
    (processBatch p b n o).1.percentage = p.percentage := by
  cases o <;> exact ⟨rfl, rfl⟩

/-- `bookRow` never touches `status` or `percentage`. -/
theorem bookRow_fields (t : TransformResult) (p : CSVImportProgress)
    (b : List ICustomer) :
    (bookRow t p b).1.status = p.status ∧
    (bookRow t p b).1.percentage = p.percentage := by
  unfold bookRow
  split <;> exact ⟨rfl, rfl⟩

/-- `dispatchFullBatch` never touches `status` or `percentage`. -/
theorem dispatchFullBatch_fields (cfg : Config) (p : CSVImportProgress)
    (b : List ICustomer) (n d : Nat) :
    (dispatchFullBatch cfg p b n d).1.status = p.status ∧
    (dispatchFullBatch cfg p b n d).1.percentage = p.percentage := by
  simp only [dispatchFullBatch]
  split
  · split
    · exact ⟨(processBatch_fields p b n _).1, (processBatch_fields p b n _).2⟩
    · exact ⟨(processBatch_fields p b n _).1, (processBatch_fields p b n _).2⟩
  · exact ⟨rfl, rfl⟩

/-- What one record step guarantees: the run is not finished, the row counter
advances, the percentage is the estimate for the new row count, and either the
ceiling fired (stream destroyed, status `failed`) or it did not (status
untouched, error count within the ceiling). -/
theorem recordStep_spec (cfg : Config) (s : StreamState) (r : RawRow) :
    (recordStep cfg s r).done = false ∧
    (recordStep cfg s r).rowNumber = s.rowNumber + 1 ∧
    (recordStep cfg s r).progress.percentage = percentageOf (s.rowNumber + 1) ∧
    ((recordStep cfg s r).aborted = true ∧
        (recordStep cfg s r).progress.status = ImportStatus.failed ∨
      (recordStep cfg s r).aborted = false ∧
        (recordStep cfg s r).progress.status = s.progress.status ∧
        (recordStep cfg s r).progress.errors.length ≤ cfg.maxErrors) := by
  simp only [recordStep]
  split
  next hover => exact ⟨rfl, rfl, rfl, Or.inl ⟨rfl, rfl⟩⟩
  next hover =>
    refine ⟨rfl, rfl, rfl, Or.inr ⟨rfl, ?_, Nat.le_of_not_lt hover⟩⟩
    exact (dispatchFullBatch_fields cfg _ _ _ _).1.trans (bookRow_fields _ _ _).1

/-- What the end step guarantees. -/
theorem endStep_spec (cfg : Config) (s : StreamState) :
    (endStep cfg s).done = true ∧
    (endStep cfg s).aborted = false ∧
    (endStep cfg s).progress.status = ImportStatus.completed ∧
    (endStep cfg s).progress.percentage = 100 :=
  ⟨rfl, rfl, rfl, rfl⟩

/-- The invariant holds initially. -/
theorem mainInv_initState (cfg : Config) : MainInv cfg initState := by
  refine ⟨?_, ?_, ?_, ?_⟩
  · intro h; exact absurd h (by decide)
  · intro _
    constructor
    · show (0 : ℚ) = percentageOf 0
      unfold percentageOf
      norm_num
    · decide
  · intro h; exact absurd h (by decide)
  · intro _ _
    exact Nat.zero_le _

/-- The invariant is preserved by every step. -/
theorem mainInv_step (cfg : Config) (s : StreamState) (e : Ev)
    (h : MainInv cfg s) : MainInv cfg (step cfg s e) := by
  obtain ⟨hdone, hlive, habort, herr⟩ := h
  cases e with
  | cancel =>
    simp only [step]
    by_cases hp : s.progress.status = ImportStatus.processing
    · have hpc : (cancelProgress s.progress).2 =
          { s.progress with status := .cancelled } := by
        simp [cancelProgress, hp]
      rw [hpc]
      refine ⟨?_, ?_, ?_, ?_⟩
      · intro hd
        exact absurd ((hdone hd).1) (by rw [hp]; intro hx; cases hx)
      · intro hd
        exact ⟨(hlive hd).1, by intro hx; cases hx⟩
      · intro hab
        exact absurd (habort hab) (by rw [hp]; intro hx; cases hx)
      · intro hab hd
        exact herr hab hd
    · have hpc : (cancelProgress s.progress).2 = s.progress := by
        simp [cancelProgress, hp]
      rw [hpc]
      exact ⟨hdone, hlive, habort, herr⟩
  | record r =>
    simp only [step]
    split
    · exact ⟨hdone, hlive, habort, herr⟩
    next hg =>
      simp only [Bool.or_eq_true, not_or, Bool.not_eq_true] at hg
      obtain ⟨ha, hd⟩ := hg
      obtain ⟨h1, h2, h3, h4⟩ := recordStep_spec cfg s r
      refine ⟨?_, ?_, ?_, ?_⟩
      · intro hx; rw [h1] at hx; cases hx
      · intro _
        refine ⟨by rw [h3, h2], ?_⟩
        rcases h4 with ⟨-, hs'⟩ | ⟨-, hs', -⟩
        · rw [hs']; intro hx; cases hx
        · rw [hs']; exact (hlive hd).2
      · intro hab
        rcases h4 with ⟨-, hs'⟩ | ⟨ha', -, -⟩
        · exact hs'
        · rw [ha'] at hab; cases hab
      · intro hab hdn
        rcases h4 with ⟨ha', -⟩ | ⟨-, -, he'⟩
        · rw [ha'] at hab; cases hab
        · exact he'
  | endOfStream =>
    simp only [step]
    split
    · exact ⟨hdone, hlive, habort, herr⟩
    · obtain ⟨h1, h2, h3, h4⟩ := endStep_spec cfg s
      refine ⟨fun _ => ⟨h3, h4, h2⟩, ?_, ?_, ?_⟩
      · intro hx; rw [h1] at hx; cases hx
      · intro hab; rw [h2] at hab; cases hab
      · intro _ hdn; rw [h1] at hdn; cases hdn

/-- Every reachable state satisfies the invariant. -/
theorem mainInv_reachable (cfg : Config) (s : StreamState)
    (h : Reachable cfg s) : MainInv cfg s := by
  obtain ⟨evs, rfl⟩ := h
  suffices H : ∀ (l : List Ev) (t : StreamState),
      MainInv cfg t → MainInv cfg (l.foldl (step cfg) t) by
    exact H evs initState (mainInv_initState cfg)
  intro l
  induction l with
  | nil => exact fun t ht => ht
  | cons e rest ih => exact fun t ht => ih _ (mainInv_step cfg t e ht)

/-- The percentage estimate is monotone in the row count. -/
theorem percentageOf_mono {a b : Nat} (h : a ≤ b) :
    percentageOf a ≤ percentageOf b := by
  unfold percentageOf
  refine min_le_min ?_ le_rfl
  have : (a : ℚ) ≤ (b : ℚ) := by exact_mod_cast h
  nlinarith

/-- The percentage estimate is nonnegative. -/
theorem percentageOf_nonneg (n : Nat) : 0 ≤ percentageOf n := by
  unfold percentageOf
  refine le_min ?_ (by norm_num)
  positivity

/-- The percentage estimate is capped at 99. -/
theorem percentageOf_le_99 (n : Nat) : percentageOf n ≤ 99 :=
  min_le_right _ _

/-- One step never decreases the percentage. -/
theorem percentage_mono_step (cfg : Config) (s : StreamState) (e : Ev)
    (h : MainInv cfg s) :
    s.progress.percentage ≤ (step cfg s e).progress.percentage := by
  obtain ⟨hdone, hlive, habort, herr⟩ := h
  cases e with
  | cancel =>
    simp only [step]
    unfold cancelProgress
    split <;> exact le_rfl
  | record r =>
    simp only [step]
    split
    · exact le_rfl
    next hg =>
      simp only [Bool.or_eq_true, not_or, Bool.not_eq_true] at hg
      rw [(recordStep_spec cfg s r).2.2.1, (hlive hg.2).1]
      exact percentageOf_mono (Nat.le_succ _)
  | endOfStream =>
    simp only [step]
    split
    · exact le_rfl
    next hg =>
      simp only [Bool.or_eq_true, not_or, Bool.not_eq_true] at hg
      rw [(endStep_spec cfg s).2.2.2, (hlive hg.2).1]
      exact le_trans (percentageOf_le_99 _) (by norm_num)

/-- Claim C8: along any run, the percentage never decreases from one observed
state to the next; it stays within `[0, 99]` while the status is
`processing`; and it equals 100 exactly when the status is `completed`. -/
theorem c8_percentage_spec (cfg : Config) (s : StreamState)
    (h : Reachable cfg s) :
    (∀ e, s.progress.percentage ≤ (step cfg s e).progress.percentage)
  ∧ (s.progress.status = ImportStatus.processing →
      0 ≤ s.progress.percentage ∧ s.progress.percentage ≤ 99)
  ∧ (s.progress.percentage = 100 ↔ s.progress.status = ImportStatus.completed) := by
  have hinv := mainInv_reachable cfg s h
  obtain ⟨hdone, hlive, habort, herr⟩ := hinv
  refine ⟨fun e => percentage_mono_step cfg s e ⟨hdone, hlive, habort, herr⟩, ?_, ?_, ?_⟩
  · intro hp
    cases hd : s.done
    · rw [(hlive hd).1]
      exact ⟨percentageOf_nonneg _, percentageOf_le_99 _⟩
    · exact absurd ((hdone hd).1) (by rw [hp]; intro hx; cases hx)
  · intro h100
    cases hd : s.done
    · have := (hlive hd).1
      rw [this] at h100
      have := percentageOf_le_99 s.rowNumber
      rw [h100] at this
      norm_num at this
    · exact (hdone hd).1
  · intro hc
    cases hd : s.done
    · exact absurd hc (hlive hd).2
    · exact (hdone hd).2.1

/-- Witness for C8 at the initial state of a concrete run. -/
theorem c8_percentage_witness :
    (run cfgPlain []).progress.percentage ≤
      (step cfgPlain (run cfgPlain []) (Ev.record validRow)).progress.percentage ∧
    (0 ≤ (run cfgPlain []).progress.percentage ∧
      (run cfgPlain []).progress.percentage ≤ 99) ∧
    ((run cfgPlain []).progress.percentage = 100 ↔
      (run cfgPlain []).progress.status = ImportStatus.completed) := by
  have h := c8_percentage_spec cfgPlain (run cfgPlain []) ⟨[], rfl⟩
  exact ⟨h.1 (Ev.record validRow), h.2.1 rfl, h.2.2⟩

/-- Claim C4 (amended): the error-ceiling check runs at the end of every
record iteration, so whenever a live (not yet ended) run shows more errors
than the ceiling, the stream has been destroyed: the job is `failed`, and
every further event — another record, the end signal, a cancellation — leaves
the state completely unchanged; in particular the buffered partial batch is
never submitted.  (A breach first produced by the end-of-stream flush is not
caught — see the counterexample above — so the claim's unconditional
"transitions to Failed" is amended to runs still inside the record loop.) -/
theorem c4_ceiling_breach_is_hard_stop (cfg : Config) (s : StreamState)
    (h : Reachable cfg s) (hnd : s.done = false)
    (hover : s.progress.errors.length > cfg.maxErrors) :
    s.aborted = true ∧ s.progress.status = ImportStatus.failed ∧
      ∀ e, step cfg s e = s := by
  obtain ⟨hdone, hlive, habort, herr⟩ := mainInv_reachable cfg s h
  have hab : s.aborted = true := by
    cases hb : s.aborted
    · exact absurd hover (by have := herr hb hnd; omega)
    · rfl
  refine ⟨hab, habort hab, ?_⟩
  intro e
  have hs := habort hab
  cases e with
  | record r => simp [step, hab]
  | endOfStream => simp [step, hab]
  | cancel =>
    simp only [step]
    have hpc : (cancelProgress s.progress).2 = s.progress := by
      simp [cancelProgress, hs]
    rw [hpc]

/-- Witness for C4 at a concrete aborted run: ceiling 0, one all-invalid
record. -/
theorem c4_ceiling_witness :
    (run cfgCeilingZero [Ev.record emptyRow]).aborted = true ∧
    (run cfgCeilingZero [Ev.record emptyRow]).progress.status =
      ImportStatus.failed ∧
    step cfgCeilingZero (run cfgCeilingZero [Ev.record emptyRow]) Ev.endOfStream =
      run cfgCeilingZero [Ev.record emptyRow] ∧
    step cfgCeilingZero (run cfgCeilingZero [Ev.record emptyRow])
        (Ev.record validRow) =
      run cfgCeilingZero [Ev.record emptyRow] := by
  have h := c4_ceiling_breach_is_hard_stop cfgCeilingZero
    (run cfgCeilingZero [Ev.record emptyRow]) ⟨[Ev.record emptyRow], rfl⟩
    (by decide) (by decide)
  exact ⟨h.1, h.2.1, h.2.2 Ev.endOfStream, h.2.2 (Ev.record validRow)⟩

/-! ## Batch cadence (claim C7) -/


/-- Incrementing a counter whose residue is about to wrap. -/
theorem mod_succ_full {N k : Nat} (h : k % N + 1 = N) :
    (k + 1) % N = 0 ∧ (k + 1) / N = k / N + 1 := by
  have hd := Nat.div_add_mod k N
  have hmul : N * (k / N + 1) = N * (k / N) + N := by ring
  have hk : k + 1 = N * (k / N + 1) := by
    rw [hmul]
    omega
  exact ⟨by rw [hk, Nat.mul_mod_right],
    by rw [hk, Nat.mul_div_cancel_left _ (by omega : 0 < N)]⟩

/-- Incrementing a counter whose residue does not wrap. -/
theorem mod_succ_partial {N k : Nat} (hN : 0 < N) (h : k % N + 1 < N) :
    (k + 1) % N = k % N + 1 ∧ (k + 1) / N = k / N := by
  have hd := Nat.div_add_mod k N
  have hk : k + 1 = N * (k / N) + (k % N + 1) := by omega
  constructor
  · rw [hk, Nat.mul_add_mod, Nat.mod_eq_of_lt h]
  · rw [hk, Nat.mul_add_div hN, Nat.div_eq_of_lt h, Nat.add_zero]

/-- `ceil(M / N)` written with truncated subtraction. -/
theorem ceil_div (M N : Nat) (hN : 0 < N) :
    (M + N - 1) / N = M / N + (if M % N = 0 then 0 else 1) := by
  have hd := Nat.div_add_mod M N
  have hr : M % N < N := Nat.mod_lt _ hN
  by_cases h0 : M % N = 0
  · rw [if_pos h0]
    have hk : M + N - 1 = N * (M / N) + (N - 1) := by omega
    rw [hk, Nat.mul_add_div hN, Nat.div_eq_of_lt (show N - 1 < N by omega),
      Nat.add_zero]
  · rw [if_neg h0]
    have hmul : N * (M / N + 1) = N * (M / N) + N := by ring
    have hk : M + N - 1 = N * (M / N + 1) + (M % N - 1) := by
      rw [hmul]
      omega
    rw [hk, Nat.mul_add_div hN, Nat.div_eq_of_lt (show M % N - 1 < N by omega),
      Nat.add_zero]

/-- A successful bulk write does not throw and books no error. -/
theorem processBatch_ok_parts (p : CSVImportProgress) (b : List ICustomer)
    (n : Nat) (m : Int) :
    (processBatch p b n (BatchOutcome.ok m)).2 = false ∧
    (processBatch p b n (BatchOutcome.ok m)).1.errors = p.errors :=
  ⟨rfl, rfl⟩

/-- One valid record under a succeeding writer: no abort, no error, the
buffer either grows by one or is dispatched and cleared. -/
theorem c7_recordStep (cfg : Config) (s : StreamState) (r : RawRow)
    (hvalid : rowChecksB cfg.currentYear r = true)
    (hok : ∀ i, ∃ m, cfg.outcomes i = BatchOutcome.ok m)
    (herr : s.progress.errors = []) :
    (recordStep cfg s r).aborted = false ∧
    (recordStep cfg s r).done = false ∧
    (recordStep cfg s r).progress.errors = [] ∧
    (recordStep cfg s r).batch.length =
      (if s.batch.length + 1 ≥ cfg.batchSize then 0 else s.batch.length + 1) ∧
    (recordStep cfg s r).processedBatches =
      (if s.batch.length + 1 ≥ cfg.batchSize then s.processedBatches + 1
       else s.processedBatches) ∧
    (recordStep cfg s r).dispatches =
      (if s.batch.length + 1 ≥ cfg.batchSize then s.dispatches + 1
       else s.dispatches) := by
  obtain ⟨m, hm⟩ := hok s.processedBatches
  have ht : transformCSVRow cfg.currentYear r ((s.rowNumber + 1 : Nat) : Int) =
      { isValid := true, data := some (customerOf r),
        errors := errListOf cfg.currentYear r ((s.rowNumber + 1 : Nat) : Int) } := by
    rw [transformCSVRow_eq, if_pos hvalid]
  simp only [recordStep, bookRow, ht, if_pos]
  simp only [dispatchFullBatch, hm, processBatch, herr]
  simp only [Option.toList_some, List.length_append, List.length_singleton]
  split
  next hfull =>
    simp [herr]
  next hfull =>
    simp [herr]


/-- The record loop on valid rows with a succeeding writer: after `k + M`
booked rows the buffer holds `(k + M) mod N` rows and `(k + M) div N` batches
have been dispatched. -/
theorem c7_loop (cfg : Config) (hN : 0 < cfg.batchSize)
    (hok : ∀ i, ∃ m, cfg.outcomes i = BatchOutcome.ok m) :
    ∀ (rows : List RawRow), (∀ r ∈ rows, rowChecksB cfg.currentYear r = true) →
    ∀ (s : StreamState) (k : Nat),
      s.aborted = false → s.done = false → s.progress.errors = [] →
      s.batch.length = k % cfg.batchSize →
      s.processedBatches = k / cfg.batchSize →
      s.dispatches = k / cfg.batchSize →
      ((rows.map Ev.record).foldl (step cfg) s).aborted = false ∧
      ((rows.map Ev.record).foldl (step cfg) s).done = false ∧
      ((rows.map Ev.record).foldl (step cfg) s).progress.errors = [] ∧
      ((rows.map Ev.record).foldl (step cfg) s).batch.length =
        (k + rows.length) % cfg.batchSize ∧
      ((rows.map Ev.record).foldl (step cfg) s).processedBatches =
        (k + rows.length) / cfg.batchSize ∧
      ((rows.map Ev.record).foldl (step cfg) s).dispatches =
        (k + rows.length) / cfg.batchSize := by
  intro rows
  induction rows with
  | nil =>
    intro _ s k ha hd he hb hp hdis
    simpa using ⟨ha, hd, he, hb, hp, hdis⟩
  | cons r rest ih =>
    intro hv s k ha hd he hb hp hdis
    simp only [List.map_cons, List.foldl_cons]
    have hstep : step cfg s (Ev.record r) = recordStep cfg s r := by
      simp [step, ha, hd]
    rw [hstep]
    obtain ⟨ha', hd', he', hb', hp', hdis'⟩ :=
      c7_recordStep cfg s r (hv r (by simp)) hok he
    have hv2 : ∀ r2 ∈ rest, rowChecksB cfg.currentYear r2 = true :=
      fun r2 hr2 => hv r2 (by simp [hr2])
    have hmlt : k % cfg.batchSize < cfg.batchSize := Nat.mod_lt _ hN
    have hlen : k + (r :: rest).length = (k + 1) + rest.length := by
      simp [List.length_cons]
      omega
    rw [hlen]
    by_cases hfull : s.batch.length + 1 ≥ cfg.batchSize
    · have hfe : k % cfg.batchSize + 1 = cfg.batchSize := by omega
      obtain ⟨hm0, hd0⟩ := mod_succ_full hfe
      refine ih hv2 (recordStep cfg s r) (k + 1) ha' hd' he' ?_ ?_ ?_
      · rw [hb', if_pos hfull, hm0]
      · rw [hp', if_pos hfull, hd0, hp]
      · rw [hdis', if_pos hfull, hd0, hdis]
    · have hflt : k % cfg.batchSize + 1 < cfg.batchSize := by omega
      obtain ⟨hm0, hd0⟩ := mod_succ_partial hN hflt
      refine ih hv2 (recordStep cfg s r) (k + 1) ha' hd' he' ?_ ?_ ?_
      · rw [hb', if_neg hfull, hm0, hb]
      · rw [hp', if_neg hfull, hd0, hp]
      · rw [hdis', if_neg hfull, hd0, hdis]

/-- Flushing an empty buffer is a no-op. -/
theorem flushFinalBatch_nil (cfg : Config) (p : CSVImportProgress) (n d : Nat) :
    flushFinalBatch cfg p [] n d = (p, n, d) := by
  simp [flushFinalBatch]

/-- Flushing a nonempty buffer under a succeeding writer advances the batch
counters. -/
theorem flushFinalBatch_ok (cfg : Config) (p : CSVImportProgress)
    (b : List ICustomer) (n d : Nat) (m : Int)
    (hb : b ≠ []) (hm : cfg.outcomes n = BatchOutcome.ok m) :
    flushFinalBatch cfg p b n d =
      ((processBatch p b n (BatchOutcome.ok m)).1, n + 1, d + 1) := by
  have hl : 0 < b.length := List.length_pos.mpr hb
  simp only [flushFinalBatch, hm, if_pos hl]
  rfl

/-- Claim C7: a source of `M` valid records under batch size `N ≥ 1` and a
writer that never throws drives exactly `ceil(M / N)` batch-writer
invocations — one per full buffer plus one final partial batch — and the job
completes with `currentBatch = totalBatches = ceil(M / N)`. -/
theorem c7_batch_count (cfg : Config) (rows : List RawRow)
    (hN : 0 < cfg.batchSize)
    (hvalid : ∀ r ∈ rows, ∀ k : Int,
      (transformCSVRow cfg.currentYear r k).isValid = true)
    (hok : ∀ i, ∃ m, cfg.outcomes i = BatchOutcome.ok m) :
    (run cfg (rows.map Ev.record ++ [Ev.endOfStream])).dispatches =
        (rows.length + cfg.batchSize - 1) / cfg.batchSize ∧
    (run cfg (rows.map Ev.record ++ [Ev.endOfStream])).progress.totalBatches =
        (((rows.length + cfg.batchSize - 1) / cfg.batchSize : Nat) : Int) ∧
    (run cfg (rows.map Ev.record ++ [Ev.endOfStream])).progress.currentBatch =
        (((rows.length + cfg.batchSize - 1) / cfg.batchSize : Nat) : Int) ∧
    (run cfg (rows.map Ev.record ++ [Ev.endOfStream])).progress.status =
        ImportStatus.completed := by
  have hv2 : ∀ r ∈ rows, rowChecksB cfg.currentYear r = true := by
    intro r hr
    have h := hvalid r hr 0
    rwa [transformCSVRow_isValid] at h
  unfold run
  rw [List.foldl_append]
  obtain ⟨ha, hd, he, hb, hp, hdis⟩ :=
    c7_loop cfg hN hok rows hv2 initState 0 rfl rfl rfl (by simp [initState])
      (by simp [initState]) (by simp [initState])
  simp only [Nat.zero_add] at hb hp hdis
  simp only [List.foldl_cons, List.foldl_nil]
  have hstep : step cfg ((rows.map Ev.record).foldl (step cfg) initState) Ev.endOfStream =
      endStep cfg ((rows.map Ev.record).foldl (step cfg) initState) := by
    simp [step, ha, hd]
  rw [hstep, ceil_div _ _ hN]
  obtain ⟨m, hm⟩ := hok ((rows.map Ev.record).foldl (step cfg) initState).processedBatches
  by_cases h0 : rows.length % cfg.batchSize = 0
  · have hbnil : ((rows.map Ev.record).foldl (step cfg) initState).batch = [] := by
      apply List.length_eq_zero.mp
      rw [hb, h0]
    rw [if_pos h0]
    refine ⟨?_, ?_, ?_, ?_⟩
    · simp only [endStep, hbnil, flushFinalBatch_nil]
      rw [hdis, Nat.add_zero]
    · simp only [endStep, hbnil, flushFinalBatch_nil]
      rw [hp, Nat.add_zero]
    · simp only [endStep, hbnil, flushFinalBatch_nil]
      rw [hp, Nat.add_zero]
    · exact (endStep_spec cfg _).2.2.1
  · have hbne : ((rows.map Ev.record).foldl (step cfg) initState).batch ≠ [] := by
      intro hnil
      apply h0
      rw [← hb, hnil]
      rfl
    rw [if_neg h0]
    refine ⟨?_, ?_, ?_, ?_⟩
    · simp only [endStep, flushFinalBatch_ok cfg _ _ _ _ m hbne hm]
      rw [hdis]
    · simp only [endStep, flushFinalBatch_ok cfg _ _ _ _ m hbne hm]
      rw [hp]
    · simp only [endStep, flushFinalBatch_ok cfg _ _ _ _ m hbne hm]
      rw [hp]
    · exact (endStep_spec cfg _).2.2.1


/-- Witness for C7, spec Scenario D: batch size 2, five valid rows, batch
sizes `[2, 2, 1]`, three dispatches, `totalBatches = 3` at completion. -/
theorem c7_batch_count_witness :
    (run cfgPairs (fiveValidRows.map Ev.record ++ [Ev.endOfStream])).dispatches = 3 ∧
    (run cfgPairs (fiveValidRows.map Ev.record ++ [Ev.endOfStream])).progress.totalBatches = 3 ∧
    (run cfgPairs (fiveValidRows.map Ev.record ++ [Ev.endOfStream])).progress.currentBatch = 3 ∧
    (run cfgPairs (fiveValidRows.map Ev.record ++ [Ev.endOfStream])).progress.status =
      ImportStatus.completed := by
  have h := c7_batch_count cfgPairs fiveValidRows (by decide)
    (by
      intro r hr k
      have hrv : r = validRow := by simpa [fiveValidRows] using hr
      subst hrv
      rw [transformCSVRow_isValid]
      decide)
    (fun i => ⟨2, rfl⟩)
  exact ⟨h.1.trans (by decide), h.2.1.trans (by decide), h.2.2.1.trans (by decide), h.2.2.2⟩

end HigoCSV
